import Mathlib

/-!
Verification of the Falcon `Logger` (src/include/falcon/logger.h): a
thread-local, stream-style logging front end over `LogSystem`.  The
development shallowly embeds the logger's thread-local state and the
call-site constructs `Logger::AutoEnd` (scoped log statement),
`Logger::BlockEnd` / `LOG_BLOCK` (scoped log block), the composition
operators, and the category machinery, and proves the specified
properties about them.
-/

namespace Falcon

/-- Log levels as integers.  Modelled from the spec: the `LogSystem::LEVEL`
enum lives in `logsystem.h`, which is not under src/; the spec fixes the
order CRITICAL > ERROR > WARN > INFO > DEBUG > TRACE with the lower value
more severe and TRACE the most permissive, and logger.h sets
`LLDISABLE = -1` below all of them. -/
def LLDISABLE : Int := -1

/-- CRITICAL, the most severe (lowest) level. -/
def LLCRIT : Int := 0

/-- ERROR level. -/
def LLERR : Int := 1

/-- WARN level. -/
def LLWARN : Int := 2

/-- INFO level. -/
def LLINFO : Int := 3

/-- DEBUG level. -/
def LLDEBUG : Int := 4

/-- TRACE, the most permissive (highest) level. -/
def LLTRACE : Int := 5

/-- A committed log message.  Modelled from the spec: `LogSystem::Message`
is declared in `logsystem.h`, absent from src/; the spec gives it a source
file, line, level, category and composed text (thread identity and
timestamp are irrelevant to the single-thread properties proved here). -/
structure Message where
  file : String
  line : Int
  level : Int
  category : String
  text : String
deriving DecidableEq, Repr

/-- The logger state visible to one thread: the process-wide runtime
threshold `level` (`LogSystem::level()`, modelled from the spec since
`logsystem.h` is absent from src/), the `thread_local` fields of `Logger`
(`m_composer`, `m_category`, `m_tempCategory`, `m_msgFile`, `m_msgLine`,
`m_msgLevel`), and the ordered list of messages handed to
`LogSystem::log` by `commit`. -/
structure LoggerState where
  level : Int
  composer : String
  category : String
  tempCategory : String
  msgFile : String
  msgLine : Int
  msgLevel : Int
  committed : List Message
deriving DecidableEq, Repr

/-- `Logger::setCategory`: `m_category = category`. -/
def setCategory (s : LoggerState) (category : String) : LoggerState :=
  { s with category := category }

/-- `Logger::setTempCategory`: `m_tempCategory = category`. -/
def setTempCategory (s : LoggerState) (category : String) : LoggerState :=
  { s with tempCategory := category }

/-- `Logger::setLevel`: `m_msgLevel = lvl`. -/
def setLevel (s : LoggerState) (lvl : Int) : LoggerState :=
  { s with msgLevel := lvl }

/-- `Logger::setFile`: `m_msgFile = file`. -/
def setFile (s : LoggerState) (file : String) : LoggerState :=
  { s with msgFile := file }

/-- `Logger::setLine`: `m_msgLine = line`. -/
def setLine (s : LoggerState) (line : Int) : LoggerState :=
  { s with msgLine := line }

/-- Modelled from the spec: `LogSystem::log` (declared in `logsystem.h`,
absent from src/) builds a Message from its arguments and hands it to the
asynchronous dispatcher; we record the committed messages in order. -/
def log (s : LoggerState) (file : String) (line lvl : Int)
    (cat text : String) : LoggerState :=
  { s with committed := s.committed ++ [⟨file, line, lvl, cat, text⟩] }

/-- `Logger::readyStream`: clears the thread's composer. -/
def readyStream (s : LoggerState) : LoggerState :=
  { s with composer := "" }

/-- `Logger::operator<<(const T&)`: `m_composer << v` (values modelled by
their textual representation). -/
def compose (s : LoggerState) (v : String) : LoggerState :=
  { s with composer := s.composer ++ v }

/-- `Logger::commit`: if `m_tempCategory` is empty, log under `m_category`;
otherwise log under `m_tempCategory` and clear it; finally `readyStream`. -/
def commit (s : LoggerState) : LoggerState :=
  if s.tempCategory = "" then
    readyStream (log s s.msgFile s.msgLine s.msgLevel s.category s.composer)
  else
    readyStream (setTempCategory
      (log s s.msgFile s.msgLine s.msgLevel s.tempCategory s.composer) "")

/-- `Logger::AutoEnd`, reduced to the one observable fact about it:
whether `m_obj` is set (the statement is open). -/
structure AutoEnd where
  doLog : Bool
deriving DecidableEq, Repr

/-- `Logger::AutoEnd::AutoEnd(obj, file, line, lvl)`: `m_obj` starts null;
if `FALCON_MIN_LOG_LEVEL >= lvl && obj.level() >= lvl`, record file, line
and level into the pending state and set `m_obj`. -/
def AutoEnd.init (minLevel : Int) (s : LoggerState) (file : String)
    (line lvl : Int) : AutoEnd × LoggerState :=
  if minLevel ≥ lvl ∧ s.level ≥ lvl then
    (⟨true⟩, setLevel (setLine (setFile s file) line) lvl)
  else
    (⟨false⟩, s)

/-- `Logger::AutoEnd::~AutoEnd`: `if(m_obj){m_obj->commit();}`. -/
def AutoEnd.dtor (ae : AutoEnd) (s : LoggerState) : LoggerState :=
  if ae.doLog then commit s else s

/-- The two append operations available on a scoped log statement:
`operator<<(const AutoEnd&, T&&)` for ordinary values and
`operator<<(const AutoEnd&&, category_manipulator&&)` for `msg_cat`. -/
inductive StmtOp where
  | append (v : String)
  | msgCat (c : String)
deriving DecidableEq, Repr

/-- Effect of one append on the thread state: both overloads are guarded
by `aes.doLog()`; an ordinary value goes to the composer, a `msg_cat`
manipulator calls `setTempCategory`. -/
def AutoEnd.applyOp (ae : AutoEnd) (s : LoggerState) : StmtOp → LoggerState
  | .append v => if ae.doLog then compose s v else s
  | .msgCat c => if ae.doLog then setTempCategory s c else s

/-- A whole scoped log statement `LOG(lvl) << op1 << op2 << ...`:
construct the `AutoEnd`, apply the appends left to right, then run the
destructor at scope exit. -/
def runStatement (minLevel : Int) (s : LoggerState) (file : String)
    (line lvl : Int) (ops : List StmtOp) : LoggerState :=
  let p := AutoEnd.init minLevel s file line lvl
  AutoEnd.dtor p.1 (ops.foldl p.1.applyOp p.2)

/-- `Logger::BlockEnd`, reduced to whether `m_obj` is set. -/
structure BlockEnd where
  doLog : Bool
deriving DecidableEq, Repr

/-- `Logger::BlockEnd::BlockEnd(obj, file, line, lvl)`: same gate as
`AutoEnd`. -/
def BlockEnd.init (minLevel : Int) (s : LoggerState) (file : String)
    (line lvl : Int) : BlockEnd × LoggerState :=
  if minLevel ≥ lvl ∧ s.level ≥ lvl then
    (⟨true⟩, setLevel (setLine (setFile s file) line) lvl)
  else
    (⟨false⟩, s)

/-- `Logger::BlockEnd::complete`: `m_obj->commit(); m_obj = nullptr;`.
When `m_obj` is already null the call dereferences a null pointer, which
is undefined behavior; the embedding makes that explicit as `none`. -/
def BlockEnd.complete (be : BlockEnd) (s : LoggerState) :
    Option (BlockEnd × LoggerState) :=
  if be.doLog then some (⟨false⟩, commit s) else none

/-- Operations a `LOG_BLOCK` body performs directly on `LOGGER`: plain
composition (`LOGGER << v`, unguarded), and the category setters. -/
inductive LoggerOp where
  | append (v : String)
  | setTempCat (c : String)
  | setCat (c : String)
deriving DecidableEq, Repr

def applyLoggerOp (s : LoggerState) : LoggerOp → LoggerState
  | .append v => compose s v
  | .setTempCat c => setTempCategory s c
  | .setCat c => setCategory s c

/-- The `LOG_BLOCK(lvl) { body }` macro: a C++ for loop whose init
constructs `__ender`, whose condition is
`FALCON_MIN_LOG_LEVEL >= lvl && LOGGER.level() >= lvl && __ender`, and
whose increment is `__ender.complete()`.  Since `complete` always clears
`__ender`, the condition is false after the first increment, so the loop
body runs at most once; this definition unfolds that single iteration.
Returns the final state, the final `__ender`, and the number of times the
body executed. -/
def runLogBlock (minLevel : Int) (s : LoggerState) (file : String)
    (line lvl : Int) (bodyOps : List LoggerOp) :
    LoggerState × BlockEnd × Nat :=
  let p := BlockEnd.init minLevel s file line lvl
  if minLevel ≥ lvl ∧ p.2.level ≥ lvl ∧ p.1.doLog then
    let s2 := bodyOps.foldl applyLoggerOp p.2
    match p.1.complete s2 with
    | some q => (q.2, q.1, 1)
    | none => (s2, p.1, 1)
  else
    (p.2, p.1, 0)

/-- A `LOG_BLOCK` whose body raises an exception after performing
`doneOps`, before reaching the loop increment `__ender.complete()`:
`BlockEnd` has no destructor that commits, so the block ends with
whatever the partial body did to the thread state. -/
def runLogBlockAbnormal (minLevel : Int) (s : LoggerState) (file : String)
    (line lvl : Int) (doneOps : List LoggerOp) : LoggerState :=
  let p := BlockEnd.init minLevel s file line lvl
  if minLevel ≥ lvl ∧ p.2.level ≥ lvl ∧ p.1.doLog then
    doneOps.foldl applyLoggerOp p.2
  else
    p.2

/-- The `LOG_CATEGORY(__CAT)` macro:
`if(FALCON_MIN_LOG_LEVEL >= LOGGER.level()){LOGGER.setCategory(__CAT);}`. -/
def LOG_CATEGORY (minLevel : Int) (s : LoggerState)
    (cat : String) : LoggerState :=
  if minLevel ≥ s.level then setCategory s cat else s

/-- Concatenation of the appended values, in append order. -/
def concatList : List String → String
  | [] => ""
  | v :: vs => v ++ concatList vs

lemma applyOp_closed (s : LoggerState) (op : StmtOp) :
    AutoEnd.applyOp ⟨false⟩ s op = s := by
  cases op <;> simp [AutoEnd.applyOp]

lemma foldl_applyOp_closed (ops : List StmtOp) : ∀ s : LoggerState,
    ops.foldl (AutoEnd.applyOp ⟨false⟩) s = s := by
  induction ops with
  | nil => intro s; rfl
  | cons op ops ih => intro s; simp [List.foldl, applyOp_closed, ih]

lemma foldl_applyOp_append (vs : List String) : ∀ s : LoggerState,
    (vs.map StmtOp.append).foldl (AutoEnd.applyOp ⟨true⟩) s
      = { s with composer := s.composer ++ concatList vs } := by
  induction vs with
  | nil => intro s; simp [concatList]
  | cons v vs ih =>
      intro s
      simp [concatList, AutoEnd.applyOp, compose, ih, String.append_assoc]

lemma runStatement_appends_open (minLevel : Int) (s : LoggerState)
    (file : String) (line lvl : Int) (vs : List String)
    (h : minLevel ≥ lvl ∧ s.level ≥ lvl) :
    runStatement minLevel s file line lvl (vs.map StmtOp.append)
      = ⟨s.level, "", s.category, "", file, line, lvl,
         s.committed ++ [⟨file, line, lvl,
           (if s.tempCategory = "" then s.category else s.tempCategory),
           s.composer ++ concatList vs⟩]⟩ := by
  unfold runStatement AutoEnd.init
  rw [if_pos h]
  simp only [foldl_applyOp_append, AutoEnd.dtor, setFile, setLine, setLevel]
  by_cases ht : s.tempCategory = "" <;>
    simp [commit, readyStream, log, setTempCategory, ht]

/-- C1: a newly constructed scoped log statement is open iff the
build-time minimum admits the level and the runtime threshold admits the
level; if either comparison fails it is closed. -/
theorem autoEnd_open_iff (minLevel : Int) (s : LoggerState) (file : String)
    (line lvl : Int) :
    (AutoEnd.init minLevel s file line lvl).1.doLog = true ↔
      (minLevel ≥ lvl ∧ s.level ≥ lvl) := by
  unfold AutoEnd.init
  by_cases h : minLevel ≥ lvl ∧ s.level ≥ lvl <;> simp [h]

/-- C4: an open scoped log statement commits exactly one message at scope
exit, whose text is the concatenation, in append order, of all values
appended during the statement. -/
theorem stmt_exactly_one_commit (minLevel : Int) (s : LoggerState)
    (file : String) (line lvl : Int) (vs : List String)
    (hopen : minLevel ≥ lvl ∧ s.level ≥ lvl) (hc : s.composer = "") :
    (runStatement minLevel s file line lvl (vs.map StmtOp.append)).committed
      = s.committed ++ [⟨file, line, lvl,
          (if s.tempCategory = "" then s.category else s.tempCategory),
          concatList vs⟩] := by
  rw [runStatement_appends_open minLevel s file line lvl vs hopen]
  simp [hc, String.empty_append]

/-- C4 witness: appending three values yields exactly one message whose
text is their concatenation. -/
theorem stmt_exactly_one_commit_witness :
    (runStatement 5 ⟨5, "", "Net", "", "", 0, 0, []⟩ "a.cpp" 7 3
        (["x", "y", "z"].map StmtOp.append)).committed
      = [⟨"a.cpp", 7, 3, "Net", "xyz"⟩] := by
  have h := stmt_exactly_one_commit 5 ⟨5, "", "Net", "", "", 0, 0, []⟩
    "a.cpp" 7 3 ["x", "y", "z"] (by decide) rfl
  simpa [concatList] using h

/-- C7: a closed scoped log statement leaves the thread state exactly
unchanged: every append is a no-op (nothing reaches the composer) and no
message is committed at scope exit. -/
theorem closed_stmt_noop (minLevel : Int) (s : LoggerState) (file : String)
    (line lvl : Int) (ops : List StmtOp)
    (hclosed : ¬(minLevel ≥ lvl ∧ s.level ≥ lvl)) :
    runStatement minLevel s file line lvl ops = s := by
  unfold runStatement AutoEnd.init
  rw [if_neg hclosed]
  simp [foldl_applyOp_closed, AutoEnd.dtor]

/-- C7 witness: with the runtime threshold at WARN, an INFO statement is
a no-op. -/
theorem closed_stmt_noop_witness :
    runStatement 5 ⟨2, "", "Net", "", "", 0, 0, []⟩ "a.cpp" 7 3
        [.append "x"] = ⟨2, "", "Net", "", "", 0, 0, []⟩ :=
  closed_stmt_noop 5 ⟨2, "", "Net", "", "", 0, 0, []⟩ "a.cpp" 7 3
    [.append "x"] (by decide)

/-- C2 counterexample: in one open statement, category overrides "A" then
"B" commit under category "B" — the last override applied, not the first
one seen. -/
theorem second_override_replaces_first :
    ((runStatement 5 ⟨5, "", "P", "", "", 0, 0, []⟩ "f.cpp" 10 3
        [.msgCat "A", .msgCat "B", .append "x"]).committed.map
        Message.category = ["B"])
    ∧ ("B" : String) ≠ "A" := by
  constructor
  · decide
  · decide

/-- C2 amended: each category override applied while the statement is
open replaces the thread's temporary category, so the statement's commit
uses the last override applied, not the first. -/
theorem stmt_last_override_wins (minLevel : Int) (s : LoggerState)
    (file : String) (line lvl : Int) (a b v : String)
    (hopen : minLevel ≥ lvl ∧ s.level ≥ lvl) (hb : b ≠ "")
    (hc : s.composer = "") :
    (runStatement minLevel s file line lvl
        [.msgCat a, .msgCat b, .append v]).committed
      = s.committed ++ [⟨file, line, lvl, b, v⟩] := by
  unfold runStatement AutoEnd.init
  rw [if_pos hopen]
  simp [AutoEnd.applyOp, AutoEnd.dtor, commit, readyStream, log,
    setTempCategory, setFile, setLine, setLevel, compose, hb, hc]

/-- C2 amended witness. -/
theorem stmt_last_override_wins_witness :
    (runStatement 5 ⟨5, "", "Q", "", "", 0, 0, []⟩ "g.cpp" 11 3
        [.msgCat "A", .msgCat "B", .append "y"]).committed
      = [⟨"g.cpp", 11, 3, "B", "y"⟩] := by
  have h := stmt_last_override_wins 5 ⟨5, "", "Q", "", "", 0, 0, []⟩
    "g.cpp" 11 3 "A" "B" "y" (by decide) (by decide) rfl
  simpa using h

/-- C3: after complete() has run once on an open block, the second
complete() call dereferences the now-null `m_obj` — undefined behavior,
modelled as `none` — rather than being a no-op or a fail-fast usage
error. -/
theorem blockEnd_double_complete (be : BlockEnd) (s : LoggerState)
    (q : BlockEnd × LoggerState) (h : BlockEnd.complete be s = some q) :
    BlockEnd.complete q.1 q.2 = none := by
  unfold BlockEnd.complete at h
  by_cases hb : be.doLog = true
  · rw [if_pos hb] at h
    obtain rfl : (⟨⟨false⟩, commit s⟩ : BlockEnd × LoggerState) = q :=
      Option.some.inj h
    simp [BlockEnd.complete]
  · rw [if_neg hb] at h
    simp at h

/-- C3 witness: a concrete open block completed once, then completed
again. -/
theorem blockEnd_double_complete_witness :
    BlockEnd.complete ⟨false⟩ (commit ⟨5, "", "P", "", "", 0, 0, []⟩)
      = none :=
  blockEnd_double_complete ⟨true⟩ ⟨5, "", "P", "", "", 0, 0, []⟩
    (⟨false⟩, commit ⟨5, "", "P", "", "", 0, 0, []⟩) rfl

/-- C5: with persistent category `s.category`, an open statement that
sets temporary override `b` commits one message with category `b`, the
commit clears the override, and the immediately following statement with
no override commits with the persistent category again. -/
theorem temp_category_one_shot (minLevel : Int) (s : LoggerState)
    (file : String) (line lvl : Int) (b v w : String)
    (hopen : minLevel ≥ lvl ∧ s.level ≥ lvl) (hb : b ≠ "")
    (hc : s.composer = "") :
    (runStatement minLevel
        (runStatement minLevel s file line lvl [.msgCat b, .append v])
        file line lvl [.append w]).committed
      = s.committed ++ [⟨file, line, lvl, b, v⟩,
          ⟨file, line, lvl, s.category, w⟩]
    ∧ (runStatement minLevel s file line lvl
        [.msgCat b, .append v]).tempCategory = "" := by
  have h1 : runStatement minLevel s file line lvl [.msgCat b, .append v]
      = ⟨s.level, "", s.category, "", file, line, lvl,
         s.committed ++ [⟨file, line, lvl, b, v⟩]⟩ := by
    unfold runStatement AutoEnd.init
    rw [if_pos hopen]
    simp [AutoEnd.applyOp, AutoEnd.dtor, commit, readyStream, log,
      setTempCategory, setFile, setLine, setLevel, compose, hb, hc]
  refine ⟨?_, by rw [h1]⟩
  rw [h1]
  have h2 := runStatement_appends_open minLevel
    ⟨s.level, "", s.category, "", file, line, lvl,
      s.committed ++ [⟨file, line, lvl, b, v⟩]⟩ file line lvl [w] hopen
  simp only [List.map_cons, List.map_nil] at h2
  rw [h2]
  simp [concatList]

/-- C5 witness: persistent category "A", override "B" for one statement
only. -/
theorem temp_category_one_shot_witness :
    (runStatement 5
        (runStatement 5 ⟨5, "", "A", "", "", 0, 0, []⟩ "h.cpp" 4 3
          [.msgCat "B", .append "v"])
        "h.cpp" 4 3 [.append "w"]).committed
      = [⟨"h.cpp", 4, 3, "B", "v"⟩, ⟨"h.cpp", 4, 3, "A", "w"⟩] := by
  have h := temp_category_one_shot 5 ⟨5, "", "A", "", "", 0, 0, []⟩
    "h.cpp" 4 3 "B" "v" "w" (by decide) (by decide) rfl
  simpa using h.1

lemma applyLoggerOp_committed (s : LoggerState) (op : LoggerOp) :
    (applyLoggerOp s op).committed = s.committed := by
  cases op <;> rfl

lemma foldl_applyLoggerOp_committed (ops : List LoggerOp) :
    ∀ s : LoggerState,
      (ops.foldl applyLoggerOp s).committed = s.committed := by
  induction ops with
  | nil => intro s; rfl
  | cons op ops ih =>
      intro s
      rw [List.foldl_cons, ih, applyLoggerOp_committed]

lemma commit_committed_length (s : LoggerState) :
    (commit s).committed.length = s.committed.length + 1 := by
  unfold commit
  by_cases ht : s.tempCategory = "" <;>
    simp [ht, readyStream, log, setTempCategory]

lemma runLogBlock_open (minLevel : Int) (s : LoggerState) (file : String)
    (line lvl : Int) (bodyOps : List LoggerOp)
    (h : minLevel ≥ lvl ∧ s.level ≥ lvl) :
    runLogBlock minLevel s file line lvl bodyOps
      = (commit (bodyOps.foldl applyLoggerOp
          (setLevel (setLine (setFile s file) line) lvl)), ⟨false⟩, 1) := by
  unfold runLogBlock BlockEnd.init BlockEnd.complete
  rw [if_pos h]
  simp [h.1, h.2, setFile, setLine, setLevel]

lemma runLogBlock_closed (minLevel : Int) (s : LoggerState) (file : String)
    (line lvl : Int) (bodyOps : List LoggerOp)
    (h : ¬(minLevel ≥ lvl ∧ s.level ≥ lvl)) :
    runLogBlock minLevel s file line lvl bodyOps = (s, ⟨false⟩, 0) := by
  unfold runLogBlock BlockEnd.init
  rw [if_neg h]
  simp

/-- C6: a LOG_BLOCK whose body exits abnormally (an exception thrown)
before complete() is invoked commits no message: the list of committed
messages is exactly what it was before the block. -/
theorem block_abnormal_no_commit (minLevel : Int) (s : LoggerState)
    (file : String) (line lvl : Int) (doneOps : List LoggerOp) :
    (runLogBlockAbnormal minLevel s file line lvl doneOps).committed
      = s.committed := by
  unfold runLogBlockAbnormal BlockEnd.init
  by_cases h : minLevel ≥ lvl ∧ s.level ≥ lvl
  · rw [if_pos h]
    simp [h.1, h.2, setFile, setLine, setLevel,
      foldl_applyLoggerOp_committed]
  · rw [if_neg h]
    simp

/-- C8: a LOG_BLOCK runs its body zero times when the gate is closed
(leaving the state untouched) and exactly once when open; the single
complete() at the end of the body commits exactly one message, after
which the block guard is no longer open. -/
theorem log_block_exactly_once (minLevel : Int) (s : LoggerState)
    (file : String) (line lvl : Int) (bodyOps : List LoggerOp) :
    (runLogBlock minLevel s file line lvl bodyOps).2.2
        = (if minLevel ≥ lvl ∧ s.level ≥ lvl then 1 else 0)
    ∧ (runLogBlock minLevel s file line lvl bodyOps).1.committed.length
        = s.committed.length
            + (if minLevel ≥ lvl ∧ s.level ≥ lvl then 1 else 0)
    ∧ (runLogBlock minLevel s file line lvl bodyOps).2.1.doLog = false
    ∧ (¬(minLevel ≥ lvl ∧ s.level ≥ lvl) →
        runLogBlock minLevel s file line lvl bodyOps = (s, ⟨false⟩, 0)) := by
  by_cases h : minLevel ≥ lvl ∧ s.level ≥ lvl
  · rw [runLogBlock_open minLevel s file line lvl bodyOps h]
    refine ⟨by simp [h], ?_, rfl, fun hn => absurd h hn⟩
    simp only [commit_committed_length, foldl_applyLoggerOp_committed,
      setFile, setLine, setLevel]
    simp [h]
  · rw [runLogBlock_closed minLevel s file line lvl bodyOps h]
    simp [h]

/-- C8 witness: a concrete open block executes once and commits once; a
concrete closed one executes zero times. -/
theorem log_block_exactly_once_witness :
    (runLogBlock 5 ⟨5, "", "P", "", "", 0, 0, []⟩ "b.cpp" 9 3
        [.append "u"]).2.2 = 1
    ∧ (runLogBlock 5 ⟨5, "", "P", "", "", 0, 0, []⟩ "b.cpp" 9 3
        [.append "u"]).1.committed.length = 1
    ∧ (runLogBlock 5 ⟨2, "", "P", "", "", 0, 0, []⟩ "b.cpp" 9 3
        [.append "u"]) = (⟨2, "", "P", "", "", 0, 0, []⟩, ⟨false⟩, 0) := by
  have ho := log_block_exactly_once 5 ⟨5, "", "P", "", "", 0, 0, []⟩
    "b.cpp" 9 3 [.append "u"]
  have hc := log_block_exactly_once 5 ⟨2, "", "P", "", "", 0, 0, []⟩
    "b.cpp" 9 3 [.append "u"]
  refine ⟨?_, ?_, hc.2.2.2 (by decide)⟩
  · have := ho.1
    simpa using this
  · have := ho.2.1
    simpa using this

/-- C9 counterexample: with FALCON_MIN_LOG_LEVEL = LLDEBUG and the
runtime threshold at LLTRACE, LOG_CATEGORY does not replace the thread's
standing category. -/
theorem log_category_macro_skipped :
    (LOG_CATEGORY LLDEBUG ⟨LLTRACE, "", "Old", "", "", 0, 0, []⟩
        "New").category = "Old"
    ∧ ("Old" : String) ≠ "New" := by
  constructor
  · decide
  · decide

/-- C9 amended: Logger::setCategory always replaces the thread's standing
category, which stays effective for subsequent statements (without
override) until changed again; the LOG_CATEGORY macro performs the
replacement only when FALCON_MIN_LOG_LEVEL ≥ the runtime threshold and is
a no-op otherwise. -/
theorem set_category_persistent (minLevel : Int) (s : LoggerState)
    (c : String) (file : String) (line lvl : Int) (vs : List String)
    (hopen : minLevel ≥ lvl ∧ s.level ≥ lvl) (ht : s.tempCategory = "") :
    (setCategory s c).category = c
    ∧ (runStatement minLevel (setCategory s c) file line lvl
        (vs.map StmtOp.append)).committed
      = s.committed ++ [⟨file, line, lvl, c, s.composer ++ concatList vs⟩]
    ∧ (runStatement minLevel (setCategory s c) file line lvl
        (vs.map StmtOp.append)).category = c
    ∧ (minLevel ≥ s.level → LOG_CATEGORY minLevel s c = setCategory s c)
    ∧ (¬minLevel ≥ s.level → LOG_CATEGORY minLevel s c = s) := by
  have h2 := runStatement_appends_open minLevel (setCategory s c)
    file line lvl vs hopen
  refine ⟨rfl, ?_, ?_, fun hm => by unfold LOG_CATEGORY; rw [if_pos hm],
    fun hm => by unfold LOG_CATEGORY; rw [if_neg hm]⟩
  · rw [h2]
    simp [setCategory, ht]
  · rw [h2]
    simp [setCategory]

/-- C9 amended witness. -/
theorem set_category_persistent_witness :
    (setCategory ⟨5, "", "Old", "", "", 0, 0, []⟩ "Net").category = "Net"
    ∧ (runStatement 5 (setCategory ⟨5, "", "Old", "", "", 0, 0, []⟩ "Net")
        "c.cpp" 2 3 (["m"].map StmtOp.append)).committed
      = [⟨"c.cpp", 2, 3, "Net", "m"⟩]
    ∧ LOG_CATEGORY 5 ⟨5, "", "Old", "", "", 0, 0, []⟩ "Net"
      = setCategory ⟨5, "", "Old", "", "", 0, 0, []⟩ "Net" := by
  have h := set_category_persistent 5 ⟨5, "", "Old", "", "", 0, 0, []⟩
    "Net" "c.cpp" 2 3 ["m"] (by decide) rfl
  refine ⟨h.1, ?_, h.2.2.2.1 (by decide)⟩
  have := h.2.1
  simpa [concatList] using this

/-- C10: setting the temporary category to the empty string is
indistinguishable from not setting one: committing is the same as
committing with no override pending, and the committed message carries
the thread's persistent category. -/
theorem empty_temp_category_ignored (s : LoggerState) :
    commit (setTempCategory s "") = commit { s with tempCategory := "" }
    ∧ (commit (setTempCategory s "")).committed
      = s.committed ++ [⟨s.msgFile, s.msgLine, s.msgLevel, s.category,
          s.composer⟩] := by
  constructor
  · rfl
  · unfold commit setTempCategory
    simp [readyStream, log]

end Falcon
